import Mathlib

/-!
Verification of the jwave core (geometry and Helmholtz/PML operators).

The development shallowly embeds the two source modules:

* `jwave/geometry.py` — the `kGrid` named tuple (`make_grid`, `to_staggered`,
  the `domain_size` property), `Medium`, and `TimeAxis.from_kgrid`;
* `jwave/acoustics/operators.py` — the `laplacian_with_pml` operators (the
  generic `OnGrid` overload and the cached `FourierSeries` overload),
  `wavevector`, and the two `helmholtz` overloads.

Grid values are modelled exactly: a sample is a complex number with rational
real and imaginary parts (`CQ`), an array is a `List`, and the real-valued
geometry quantities live in `ℚ` (with `ℝ` only where the source takes a square
root or an exponential, which have no exact rational form).  The external
differentiation engine (jaxdf `gradient`, `diag_jacobian`) , the external PML
profile generator and the attenuation conversion are opaque: the operator
definitions are parameterised by an `Engine` record holding those functions,
so every theorem about the operators holds for an arbitrary engine.
-/

set_option maxRecDepth 4000

/-- A complex number with rational components: the exact-value model of one
sample of a (complex) grid array. -/
structure CQ where
  re : ℚ
  im : ℚ
deriving DecidableEq, Repr

namespace CQ

@[ext] theorem ext_cq {a b : CQ} (h1 : a.re = b.re) (h2 : a.im = b.im) : a = b := by
  cases a; cases b; simp_all

instance : Zero CQ := ⟨⟨0, 0⟩⟩
instance : One CQ := ⟨⟨1, 0⟩⟩
instance : Add CQ := ⟨fun a b => ⟨a.re + b.re, a.im + b.im⟩⟩
instance : Sub CQ := ⟨fun a b => ⟨a.re - b.re, a.im - b.im⟩⟩
instance : Neg CQ := ⟨fun a => ⟨-a.re, -a.im⟩⟩
instance : Mul CQ := ⟨fun a b => ⟨a.re * b.re - a.im * b.im, a.re * b.im + a.im * b.re⟩⟩

/-- Exact complex division (in the source this is floating-point complex
division; dividing by zero is given the junk value `0`). -/
def div (a b : CQ) : CQ :=
  let d := b.re ^ 2 + b.im ^ 2
  ⟨(a.re * b.re + a.im * b.im) / d, (a.im * b.re - a.re * b.im) / d⟩

instance : Div CQ := ⟨CQ.div⟩

/-- `a ^ n` for a complex sample (the source writes `** 2` and `** 3`). -/
def npow (a : CQ) : ℕ → CQ
  | 0 => 1
  | n + 1 => npow a n * a

instance : Pow CQ ℕ := ⟨CQ.npow⟩

/-- The imaginary unit (`1j` in the source). -/
def I : CQ := ⟨0, 1⟩

/-- Embedding of a rational (real-valued array entry) as a complex sample. -/
def ofRat (q : ℚ) : CQ := ⟨q, 0⟩

@[simp] theorem zero_re : (0 : CQ).re = 0 := rfl
@[simp] theorem zero_im : (0 : CQ).im = 0 := rfl
@[simp] theorem one_re : (1 : CQ).re = 1 := rfl
@[simp] theorem one_im : (1 : CQ).im = 0 := rfl
@[simp] theorem mul_def_re (a b : CQ) : (a * b).re = a.re * b.re - a.im * b.im := rfl
@[simp] theorem mul_def_im (a b : CQ) : (a * b).im = a.re * b.im + a.im * b.re := rfl
@[simp] theorem add_def_re (a b : CQ) : (a + b).re = a.re + b.re := rfl
@[simp] theorem add_def_im (a b : CQ) : (a + b).im = a.im + b.im := rfl
@[simp] theorem sub_def_re (a b : CQ) : (a - b).re = a.re - b.re := rfl
@[simp] theorem sub_def_im (a b : CQ) : (a - b).im = a.im - b.im := rfl

theorem div_def (a b : CQ) : a / b = CQ.div a b := rfl

@[simp] theorem sub_zero_cq (a : CQ) : a - 0 = a := by
  ext <;> simp

theorem pow_two_eq_mul_self (a : CQ) : a ^ 2 = a * a := by
  show CQ.npow a 2 = a * a
  show CQ.npow a 1 * a = a * a
  show CQ.npow a 0 * a * a = a * a
  show (1 : CQ) * a * a = a * a
  have h1 : (1 : CQ) * a = a := by
    ext <;> simp
  rw [h1]

end CQ

/- ------------------------------------------------------------------
Geometry: `jwave/geometry.py`
------------------------------------------------------------------ -/

/-- `spatial_axis(n, delta)` from `kGrid.make_grid`: centred coordinates,
`arange(0,n)*delta - delta*n/2` for even `n` and
`arange(0,n)*delta - delta*(n-1)/2` for odd `n`. -/
def spatial_axis (n : ℕ) (delta : ℚ) : List ℚ :=
  if n % 2 = 0 then
    (List.range n).map (fun (i : ℕ) => (i : ℚ) * delta - delta * (n : ℚ) / 2)
  else
    (List.range n).map (fun (i : ℕ) => (i : ℚ) * delta - delta * ((n : ℚ) - 1) / 2)

/-- `jnp.fft.fftfreq(n, d)`: sample frequencies `i/(n*d)` for
`i < (n+1)/2` and `(i-n)/(n*d)` otherwise. -/
def fftfreq (n : ℕ) (d : ℚ) : List ℚ :=
  (List.range n).map (fun (i : ℕ) =>
    if i < (n + 1) / 2 then (i : ℚ) / ((n : ℚ) * d) else ((i : ℚ) - (n : ℚ)) / ((n : ℚ) * d))

/-- `k_axis(n, d) = jnp.fft.fftfreq(n, d) * 2 * jnp.pi` from `make_grid`. -/
noncomputable def k_axis (n : ℕ) (d : ℚ) : List ℝ :=
  (fftfreq n d).map (fun q => (q : ℝ) * (2 * Real.pi))

/-- `reduce(lambda x, y: x * y, dx)` from `make_grid` (the source never calls
it on an empty tuple; an empty tuple is given the junk value `1`). -/
def reduceMul : List ℚ → ℚ
  | [] => 1
  | x :: xs => xs.foldl (· * ·) x

/-- The `k_staggered` dictionary built by `kGrid.to_staggered`: one complex
wavenumber list per axis under the keys `"backward"` and `"forward"`. -/
structure Stag where
  backward : List (List ℂ)
  forward : List (List ℂ)

/-- The `kGrid` named tuple.  `k_staggered` and `k_with_kspaceop` are `None`
until the corresponding derived state is produced, hence `Option`. -/
structure KGrid where
  N : List ℕ
  dx : List ℚ
  k_vec : List (List ℝ)
  cell_area : ℚ
  k_staggered : Option Stag
  k_with_kspaceop : Option Unit
  space_axis : List (List ℚ)

/-- `kGrid.make_grid(N, dx)`. -/
noncomputable def make_grid (N : List ℕ) (dx : List ℚ) : KGrid :=
  { N := N
    dx := dx
    k_vec := (N.zip dx).map (fun p => k_axis p.1 p.2)
    cell_area := reduceMul dx
    k_staggered := none
    k_with_kspaceop := none
    space_axis := (N.zip dx).map (fun p => spatial_axis p.1 p.2) }

/-- `kGrid.to_staggered`: a copy of the grid with `k_staggered` set; per axis
the source stores `k * exp(1j*k*dx/2)` under the key `"backward"` and
`k * exp(-1j*k*dx/2)` under the key `"forward"`. -/
noncomputable def to_staggered (g : KGrid) : KGrid :=
  { g with
    k_staggered := some
      { backward := (g.k_vec.zip g.dx).map (fun x =>
          x.1.map (fun (k : ℝ) => (k : ℂ) * Complex.exp (Complex.I * (k : ℂ) * ((x.2 : ℝ) : ℂ) / 2)))
        forward := (g.k_vec.zip g.dx).map (fun x =>
          x.1.map (fun (k : ℝ) => (k : ℂ) * Complex.exp (-Complex.I * (k : ℂ) * ((x.2 : ℝ) : ℂ) / 2))) } }

/- The `domain_size` property runs
`list(map(lambda x, y: x * y, zip(self.N, self.dx)))`: `map` receives a
single iterable, so it calls the two-parameter lambda with one positional
argument (the pair produced by `zip`).  The embedding models Python's calling
convention explicitly: a callable carries its arity, and a call with the
wrong number of positional arguments is a `TypeError`. -/

/-- Python run-time errors that the embedded code can raise. -/
inductive PyErr
  | typeError
  | domainMismatch
deriving DecidableEq, Repr

/-- A Python value as far as `domain_size` needs them: a number or a tuple. -/
inductive PyVal
  | int (n : ℤ)
  | rat (q : ℚ)
  | pair (a b : PyVal)
deriving DecidableEq, Repr

/-- `x * y` on Python numbers (int·int, int·float, float·float); any other
operand combination is a `TypeError`. -/
def pyMul : PyVal → PyVal → Except PyErr PyVal
  | PyVal.int a, PyVal.int b => Except.ok (PyVal.int (a * b))
  | PyVal.int a, PyVal.rat b => Except.ok (PyVal.rat (a * b))
  | PyVal.rat a, PyVal.int b => Except.ok (PyVal.rat (a * b))
  | PyVal.rat a, PyVal.rat b => Except.ok (PyVal.rat (a * b))
  | _, _ => Except.error PyErr.typeError

/-- A Python callable: its arity and its body. -/
structure PyFun where
  arity : ℕ
  run : List PyVal → Except PyErr PyVal

/-- Calling a Python function: supplying a number of positional arguments
different from the function's parameter count raises `TypeError`. -/
def pyApply (f : PyFun) (args : List PyVal) : Except PyErr PyVal :=
  if args.length = f.arity then f.run args else Except.error PyErr.typeError

/-- `list(map(f, xs))` with a single iterable: each element is passed to `f`
as one positional argument; the first raised error aborts the traversal. -/
def pyMapList (f : PyFun) (xs : List PyVal) : Except PyErr (List PyVal) :=
  xs.mapM (fun a => pyApply f [a])

/-- The two-parameter callable `lambda x, y: x * y` from `domain_size`. -/
def mulLambda : PyFun :=
  { arity := 2
    run := fun args =>
      match args with
      | [a, b] => pyMul a b
      | _ => Except.error PyErr.typeError }

/-- `zip(self.N, self.dx)` as a list of Python pair values. -/
def pyZipNdx (g : KGrid) : List PyVal :=
  ((g.N.map (fun (n : ℕ) => PyVal.int (n : ℤ))).zip (g.dx.map PyVal.rat)).map
    (fun p => PyVal.pair p.1 p.2)

/-- The `kGrid.domain_size` property:
`list(map(lambda x, y: x * y, zip(self.N, self.dx)))`. -/
def domain_size (g : KGrid) : Except PyErr (List PyVal) :=
  pyMapList mulLambda (pyZipNdx g)

/-- Scalar-or-array polymorphism of the `Medium` entries (`jnp` broadcasts a
Python scalar against an array). -/
inductive SFv (V : Type)
  | scalar (c : V)
  | field (f : List V)
deriving DecidableEq, Repr

/-- The `Medium` named tuple from `jwave/geometry.py`: four stored fields,
no domain attribute, no validation logic. -/
structure Medium (V : Type) where
  sound_speed : SFv V
  density : SFv V
  attenuation : SFv V
  pml_size : ℤ
deriving DecidableEq, Repr

/-- Python construction of the `Medium` named tuple: it stores the four
fields.  The source defines no `__new__`/validator, so no error path exists;
the `Except` wrapper records exactly that construction always succeeds. -/
def Medium_new (V : Type) (ss d a : SFv V) (ps : ℤ) : Except PyErr (Medium V) :=
  Except.ok ⟨ss, d, a, ps⟩

/-- `jnp.max` over a scalar-or-array (used on `medium.sound_speed`). -/
def sfvMax (s : SFv ℚ) : ℚ :=
  match s with
  | SFv.scalar c => c
  | SFv.field f => f.foldl max (f.headD 0)

/-- `jnp.min` over a scalar-or-array (used on `medium.sound_speed`). -/
def sfvMin (s : SFv ℚ) : ℚ :=
  match s with
  | SFv.scalar c => c
  | SFv.field f => f.foldl min (f.headD 0)

/-- `min(grid.dx)` over the spacing tuple. -/
def listMin (l : List ℚ) : ℚ := l.foldl min (l.headD 0)

/-- `x[0]` of a spatial axis (axes produced by `make_grid` are nonempty). -/
def axFirst (l : List ℚ) : ℚ := l.headD 0

/-- `x[-1]` of a spatial axis (axes produced by `make_grid` are nonempty). -/
def axLast (l : List ℚ) : ℚ := l.getLastD 0

/-- `sum((x[-1] - x[0]) ** 2 for x in grid.space_axis)`. -/
def diagSqSum (g : KGrid) : ℚ :=
  (g.space_axis.map (fun x => (axLast x - axFirst x) ^ 2)).sum

/-- The `TimeAxis` named tuple.  `dt` is an exact rational; `t_end` involves
`jnp.sqrt`, hence lives in `ℝ`. -/
structure TimeAxis where
  dt : ℚ
  t_end : ℝ

/-- `TimeAxis.from_kgrid(grid, medium, cfl, t_end)`:
`dt = cfl * min(grid.dx) / jnp.max(medium.sound_speed)`; when `t_end` is
`None` it is `jnp.sqrt(sum((x[-1]-x[0])**2 for x in grid.space_axis)) /
jnp.min(medium.sound_speed)`. -/
noncomputable def TimeAxis_from_kgrid (grid : KGrid) (medium : Medium ℚ)
    (cfl : ℚ) (t_end : Option ℝ) : TimeAxis :=
  { dt := cfl * listMin grid.dx / sfvMax medium.sound_speed
    t_end :=
      match t_end with
      | some t => t
      | none => Real.sqrt ((diagSqSum grid : ℚ) : ℝ) / ((sfvMin medium.sound_speed : ℚ) : ℝ) }

/- ------------------------------------------------------------------
Operators: `jwave/acoustics/operators.py`
------------------------------------------------------------------ -/

/-- The sample array of a discretized field (jaxdf `OnGrid`/`FourierSeries`
parameters), flattened to a list of complex samples. -/
def FSField : Type := List CQ

instance : DecidableEq FSField := by
  unfold FSField
  infer_instance

/-- A vector field: one component array per spatial axis (the trailing axis
of a jaxdf gradient output, and the per-axis PML damping field). -/
def VecField : Type := List FSField

instance : DecidableEq VecField := by
  unfold VecField
  infer_instance

/-- Elementwise product of two fields. -/
def fmul (a b : FSField) : FSField := List.zipWith (· * ·) a b

/-- Elementwise sum of two fields (`L + k` in `helmholtz`). -/
def fadd (a b : FSField) : FSField := List.zipWith (· + ·) a b

/-- Elementwise difference of two fields (`nabla_u - rho_u`). -/
def fsub (a b : FSField) : FSField := List.zipWith (· - ·) a b

/-- Elementwise quotient of two fields (`... / rho0` with a field `rho0`). -/
def fdiv (a b : FSField) : FSField := List.zipWith (· / ·) a b

/-- A field minus a Python scalar, elementwise (`nabla_u - 0.`). -/
def fsubScalar (a : FSField) (c : CQ) : FSField := a.map (· - c)

/-- Per-axis elementwise product of two vector fields (`grad_u * pml` and
`diag_jacobian(...) * pml`). -/
def vmul (a b : VecField) : VecField := List.zipWith fmul a b

/-- jaxdf `sum_over_dims`: elementwise sum of the per-axis components. -/
def sum_over_dims : VecField → FSField
  | [] => []
  | f :: fs => fs.foldl fadd f

/-- jaxdf `compose(x)(fn)` on a scalar-or-field: apply `fn` to every sample. -/
def sfCompose (a : SFv CQ) (fn : CQ → CQ) : SFv CQ :=
  match a with
  | SFv.scalar c => SFv.scalar (fn c)
  | SFv.field f => SFv.field (f.map fn)

/-- Broadcasting arithmetic between scalar-or-field operands, as `jnp`
performs it elementwise. -/
def sfMap2 (op : CQ → CQ → CQ) : SFv CQ → SFv CQ → SFv CQ
  | SFv.scalar a, SFv.scalar b => SFv.scalar (op a b)
  | SFv.scalar a, SFv.field g => SFv.field (g.map (fun y => op a y))
  | SFv.field f, SFv.scalar b => SFv.field (f.map (fun x => op x b))
  | SFv.field f, SFv.field g => SFv.field (List.zipWith op f g)

/-- Broadcast sum of scalar-or-field operands. -/
def sfAdd : SFv CQ → SFv CQ → SFv CQ := sfMap2 (· + ·)

/-- Broadcast product of scalar-or-field operands. -/
def sfMul : SFv CQ → SFv CQ → SFv CQ := sfMap2 (· * ·)

/-- Broadcast quotient of scalar-or-field operands. -/
def sfDiv : SFv CQ → SFv CQ → SFv CQ := sfMap2 (· / ·)

/-- Broadcast `** n` on a scalar-or-field operand. -/
def sfPow (a : SFv CQ) (n : ℕ) : SFv CQ :=
  match a with
  | SFv.scalar c => SFv.scalar (c ^ n)
  | SFv.field f => SFv.field (f.map (· ^ n))

/-- A field times a scalar-or-field factor (`u * k_mod`), elementwise with
broadcasting. -/
def fmulSF (u : FSField) (k : SFv CQ) : FSField :=
  match k with
  | SFv.scalar c => u.map (· * c)
  | SFv.field f => List.zipWith (· * ·) u f

/-- The external collaborators consumed by the operators, kept opaque: the
jaxdf spectral derivative engine (`gradient` and `diag_jacobian`, each with
its reusable transform-parameter bundle of type `GP`), the PML profile
generator `complex_pml_on_grid`, and the attenuation conversion `db2neper`.
Every operator theorem below is stated for an arbitrary engine. -/
structure Engine (GP : Type) where
  gradDefault : FSField → GP
  gradWith : FSField → GP → VecField
  diagDefault : VecField → GP
  diagWith : VecField → GP → VecField
  complexPml : Medium CQ → CQ → VecField
  db2neper : CQ → CQ → CQ

/-- jaxdf `gradient(u)` without an explicit bundle: the engine computes the
default bundle for `u` and differentiates with it. -/
def gradientNP {GP : Type} (e : Engine GP) (u : FSField) : VecField :=
  e.gradWith u (e.gradDefault u)

/-- jaxdf `diag_jacobian(v)` without an explicit bundle. -/
def diag_jacobianNP {GP : Type} (e : Engine GP) (v : VecField) : VecField :=
  e.diagWith v (e.diagDefault v)

/-- The cache dictionary built by the `FourierSeries` overload of
`laplacian_with_pml`: keys `'pml_on_grid'`, `'fft_u'`, and (present only once
the density branch has populated it) `'fft_rho0'`. -/
structure LParams (GP : Type) where
  pml_on_grid : VecField
  fft_u : GP
  fft_rho0 : Option GP
deriving DecidableEq

/-- The fresh dictionary created when `params == None`:
`{'pml_on_grid': u.replace_params(complex_pml_on_grid(medium, omega)),
'fft_u': gradient(u)._op_params}`. -/
def initLParams {GP : Type} (e : Engine GP) (u : FSField) (m : Medium CQ) (omega : CQ) :
    LParams GP :=
  { pml_on_grid := e.complexPml m omega
    fft_u := e.gradDefault u
    fft_rho0 := none }

/-- The `OnGrid` overload of `laplacian_with_pml` (first definition in the
source): no cache, result `nabla_u - rho_u` with `rho_u = 0.` when the
density is a plain number, and the returned op-params are `None`. -/
def laplacian_with_pml_ongrid {GP : Type} (e : Engine GP) (u : FSField)
    (medium : Medium CQ) (omega : CQ) : FSField × Option Unit :=
  let pml := e.complexPml medium omega
  let grad_u := gradientNP e u
  let mod_grad_u := vmul grad_u pml
  let mod_diag_jacobian := vmul (diag_jacobianNP e mod_grad_u) pml
  let nabla_u := sum_over_dims mod_diag_jacobian
  match medium.density with
  | SFv.scalar _ => (fsubScalar nabla_u 0, none)
  | SFv.field rho0 =>
      let grad_rho0 := gradientNP e rho0
      let rho_u := fdiv (sum_over_dims (vmul mod_grad_u grad_rho0)) rho0
      (fsub nabla_u rho_u, none)

/-- The `FourierSeries` overload of `laplacian_with_pml` (second definition
in the source).  The second component is the state of the params dictionary
when the function returns: the fresh dictionary when `params` was `None`,
otherwise the caller's dictionary — which the source mutates in place by
`params['fft_rho0'] = gradient(rho0)._op_params` when the density is a Field
and that key is absent. -/
def laplacian_with_pml_fourier {GP : Type} (e : Engine GP) (u : FSField)
    (medium : Medium CQ) (omega : CQ) (params : Option (LParams GP)) :
    FSField × LParams GP :=
  let p := params.getD (initLParams e u medium omega)
  let pml := p.pml_on_grid
  let grad_u := e.gradWith u p.fft_u
  let mod_grad_u := vmul grad_u pml
  let mod_diag_jacobian := vmul (e.diagWith mod_grad_u p.fft_u) pml
  let nabla_u := sum_over_dims mod_diag_jacobian
  match medium.density with
  | SFv.scalar _ => (fsubScalar nabla_u 0, p)
  | SFv.field rho0 =>
      let g0 :=
        match p.fft_rho0 with
        | none => e.gradDefault rho0
        | some g => g
      let p2 : LParams GP := { p with fft_rho0 := some g0 }
      let grad_rho0 := e.gradWith rho0 g0
      let rho_u := fdiv (sum_over_dims (vmul mod_grad_u grad_rho0)) rho0
      (fsub nabla_u rho_u, p2)

/-- `wavevector(u, medium, omega)`:
`alpha = compose(medium.attenuation)(lambda x: db2neper(x, 2.))`,
`k_mod = (omega / c) ** 2 + 2j * (omega ** 3) * alpha / c`,
returning `(u * k_mod, None)`. -/
def wavevector {GP : Type} (e : Engine GP) (u : FSField) (medium : Medium CQ)
    (omega : CQ) : FSField × Option Unit :=
  let c := medium.sound_speed
  let alpha0 := medium.attenuation
  let trans_fun := fun x => e.db2neper x ⟨2, 0⟩
  let alpha := sfCompose alpha0 trans_fun
  let k_mod := sfAdd (sfPow (sfDiv (SFv.scalar omega) c) 2)
    (sfDiv (sfMul (SFv.scalar (⟨0, 2⟩ * omega ^ 3)) alpha) c)
  (fmulSF u k_mod, none)

/-- The generic `Field` overload of `helmholtz` (first definition in the
source): `L + k` with no cache. -/
def helmholtz_ongrid {GP : Type} (e : Engine GP) (u : FSField)
    (medium : Medium CQ) (omega : CQ) : FSField × Option Unit :=
  let L := (laplacian_with_pml_ongrid e u medium omega).1
  let k := (wavevector e u medium omega).1
  (fadd L k, none)

/-- The `FourierSeries` overload of `helmholtz`: when `params` is `None` it
takes `laplacian_with_pml(u, medium, omega)._op_params`, then evaluates the
Laplacian with that bundle and adds the wavevector term.  The second
component is the state of the dictionary `params` at the return statement
(the Laplacian call can mutate it in place). -/
def helmholtz_fourier {GP : Type} (e : Engine GP) (u : FSField)
    (medium : Medium CQ) (omega : CQ) (params : Option (LParams GP)) :
    FSField × LParams GP :=
  let p := params.getD (laplacian_with_pml_fourier e u medium omega none).2
  let L := laplacian_with_pml_fourier e u medium omega (some p)
  let k := (wavevector e u medium omega).1
  (fadd L.1 k, L.2)

/- ------------------------------------------------------------------
Helper lemmas
------------------------------------------------------------------ -/

/-- A concrete engine instance (used to evaluate the operators at concrete
inputs): gradients are the singleton vector field, the diagonal Jacobian is
the identity, the PML is the constant-one profile, and the attenuation
conversion is the identity in its first argument. -/
def trivEngine : Engine Unit :=
  { gradDefault := fun _ => ()
    gradWith := fun u _ => [u]
    diagDefault := fun _ => ()
    diagWith := fun v _ => v
    complexPml := fun _ _ => [[1]]
    db2neper := fun x _ => x }

theorem fsubScalar_zero (a : FSField) : fsubScalar a 0 = a := by
  unfold fsubScalar
  simp

theorem getD_range_map (f : ℕ → ℚ) (n i : ℕ) (h : i < n) :
    ((List.range n).map f).getD i 0 = f i := by
  rw [List.getD_eq_getElem?_getD, List.getElem?_map, List.getElem?_range h]
  rfl

theorem headD_range_map (f : ℕ → ℚ) (m : ℕ) :
    (((List.range (m + 1)).map f)).headD 0 = f 0 := by
  rw [List.range_succ_eq_map]
  simp

theorem getLastD_range_map (f : ℕ → ℚ) (m : ℕ) :
    (((List.range (m + 1)).map f)).getLastD 0 = f m := by
  rw [List.range_succ, List.getLastD_eq_getLast?, List.map_append]
  simp

/-- Both parity branches of `spatial_axis` run from `-offset` to
`(n-1)·dx - offset`: the first-to-last span is `(n-1)·dx`. -/
theorem spatial_axis_span (n : ℕ) (hn : 0 < n) (d : ℚ) :
    axLast (spatial_axis n d) - axFirst (spatial_axis n d) = ((n : ℚ) - 1) * d := by
  obtain ⟨m, rfl⟩ : ∃ m, n = m + 1 := ⟨n - 1, (Nat.succ_pred_eq_of_pos hn).symm⟩
  unfold spatial_axis axFirst axLast
  split_ifs with h
  · rw [getLastD_range_map, headD_range_map]
    push_cast
    ring
  · rw [getLastD_range_map, headD_range_map]
    push_cast
    ring

theorem diagSqSum_make_grid (N : List ℕ) (dx : List ℚ) (hN : ∀ n ∈ N, 0 < n) :
    diagSqSum (make_grid N dx)
      = ((N.zip dx).map (fun p => (((p.1 : ℚ) - 1) * p.2) ^ 2)).sum := by
  unfold diagSqSum make_grid
  simp only [List.map_map]
  refine congrArg List.sum (List.map_congr_left ?_)
  intro p hp
  have hp1 : p.1 ∈ N := (List.of_mem_zip hp).1
  simp only [Function.comp]
  rw [spatial_axis_span p.1 (hN p.1 hp1) p.2]

/- ------------------------------------------------------------------
Claims
------------------------------------------------------------------ -/

/-- C7: for every positive `n` and positive spacing `dx`, `spatial_axis`
has `n` entries, entry `i` being `i·dx − dx·n/2` for even `n` and
`i·dx − dx·(n−1)/2` for odd `n`; in particular
`spatial_axis 4 1 = [-2,-1,0,1]` and `spatial_axis 5 1 = [-2,-1,0,1,2]`. -/
theorem C7_spatial_axis_centering (n : ℕ) (dx : ℚ) (hn : 0 < n) (hdx : 0 < dx) :
    (spatial_axis n dx).length = n
    ∧ (∀ i, i < n → (spatial_axis n dx).getD i 0 =
        (if n % 2 = 0 then (i : ℚ) * dx - dx * (n : ℚ) / 2
         else (i : ℚ) * dx - dx * ((n : ℚ) - 1) / 2))
    ∧ spatial_axis 4 1 = [-2, -1, 0, 1]
    ∧ spatial_axis 5 1 = [-2, -1, 0, 1, 2] := by
  refine ⟨?_, ?_, by norm_num [spatial_axis, List.range_succ], by norm_num [spatial_axis, List.range_succ]⟩
  · unfold spatial_axis
    split_ifs <;> simp
  · intro i hi
    unfold spatial_axis
    split_ifs with h <;> simp [h, getD_range_map _ n i hi, List.getElem?_range hi]

/-- Witness for C7 at `n = 4`, `dx = 1` (and the `n = 5` example). -/
theorem C7_spatial_axis_centering_witness :
    spatial_axis 4 1 = [-2, -1, 0, 1] ∧ spatial_axis 5 1 = [-2, -1, 0, 1, 2] :=
  ⟨(C7_spatial_axis_centering 4 1 (by decide) (by norm_num)).2.2.1,
   (C7_spatial_axis_centering 5 1 (by decide) (by norm_num)).2.2.2⟩

/-- C10: on every grid with at least one axis, the `domain_size` property
raises `TypeError`: its `map` passes the single pair produced by `zip` to a
two-parameter lambda. -/
theorem C10_domain_size_raises (g : KGrid) (hN : g.N ≠ []) (hdx : g.dx ≠ []) :
    domain_size g = Except.error PyErr.typeError := by
  obtain ⟨n, ns, hn⟩ := List.exists_cons_of_ne_nil hN
  obtain ⟨d, ds, hd⟩ := List.exists_cons_of_ne_nil hdx
  unfold domain_size pyMapList pyZipNdx
  rw [hn, hd]
  rfl

/-- Witness for C10 on a concrete one-axis grid. -/
theorem C10_domain_size_raises_witness :
    domain_size ⟨[64], [3/10], [], 3/10, none, none, []⟩ = Except.error PyErr.typeError :=
  C10_domain_size_raises ⟨[64], [3/10], [], 3/10, none, none, []⟩ (by simp) (by simp)

/-- C4: with a scalar (non-Field) density, both overloads of
`laplacian_with_pml` return exactly the damped Laplacian
`sum_over_dims(diag_jacobian(gradient(u) ⊙ pml) ⊙ pml)`: the density
correction is the exact additive identity, and the density-gradient cache
entry is never populated (no differentiation of the density occurs). -/
theorem C4_scalar_density_exact_laplacian {GP : Type} (e : Engine GP) (u : FSField)
    (m : Medium CQ) (omega : CQ) (c : CQ) (hd : m.density = SFv.scalar c) :
    (laplacian_with_pml_fourier e u m omega none).1
      = sum_over_dims (vmul
          (e.diagWith (vmul (e.gradWith u (e.gradDefault u)) (e.complexPml m omega))
            (e.gradDefault u))
          (e.complexPml m omega))
    ∧ (laplacian_with_pml_ongrid e u m omega).1
      = sum_over_dims (vmul
          (diag_jacobianNP e (vmul (gradientNP e u) (e.complexPml m omega)))
          (e.complexPml m omega))
    ∧ (laplacian_with_pml_fourier e u m omega none).2.fft_rho0 = none := by
  obtain ⟨ss, dens, att, ps⟩ := m
  simp only [Medium.density] at hd
  subst hd
  refine ⟨?_, ?_, ?_⟩
  · simp [laplacian_with_pml_fourier, initLParams, fsubScalar_zero]
  · simp [laplacian_with_pml_ongrid, fsubScalar_zero]
  · simp [laplacian_with_pml_fourier, initLParams]

/-- Witness medium for C4: homogeneous scalar parameters. -/
def mC4 : Medium CQ := ⟨SFv.scalar 1, SFv.scalar ⟨2, 0⟩, SFv.scalar 0, 0⟩

/-- Witness for C4 at a concrete engine, field and medium. -/
theorem C4_scalar_density_exact_laplacian_witness :
    mC4.density = SFv.scalar ⟨2, 0⟩
    ∧ ((laplacian_with_pml_fourier trivEngine [1] mC4 1 none).1
        = sum_over_dims (vmul
            (trivEngine.diagWith
              (vmul (trivEngine.gradWith [1] (trivEngine.gradDefault [1]))
                (trivEngine.complexPml mC4 1))
              (trivEngine.gradDefault [1]))
            (trivEngine.complexPml mC4 1))
      ∧ (laplacian_with_pml_ongrid trivEngine [1] mC4 1).1
        = sum_over_dims (vmul
            (diag_jacobianNP trivEngine (vmul (gradientNP trivEngine [1]) (trivEngine.complexPml mC4 1)))
            (trivEngine.complexPml mC4 1))
      ∧ (laplacian_with_pml_fourier trivEngine [1] mC4 1 none).2.fft_rho0 = none) :=
  ⟨rfl, C4_scalar_density_exact_laplacian trivEngine [1] mC4 1 ⟨2, 0⟩ rfl⟩

/-- Re-evaluating the cached Laplacian with the bundle produced by a first
(uncached) evaluation reproduces the uncached evaluation exactly, bundle
included. -/
theorem lap_fourier_refeed {GP : Type} (e : Engine GP) (u : FSField)
    (m : Medium CQ) (omega : CQ) :
    laplacian_with_pml_fourier e u m omega
        (some ((laplacian_with_pml_fourier e u m omega none).2))
      = laplacian_with_pml_fourier e u m omega none := by
  obtain ⟨ss, dens, att, ps⟩ := m
  cases dens with
  | scalar c => simp [laplacian_with_pml_fourier, initLParams]
  | field rho0 => simp [laplacian_with_pml_fourier, initLParams]

/-- C2: each `helmholtz` overload returns exactly the sum of the matching
`laplacian_with_pml` result and the `wavevector` result. -/
theorem C2_helmholtz_is_sum {GP : Type} (e : Engine GP) (u : FSField)
    (m : Medium CQ) (omega : CQ) :
    (helmholtz_ongrid e u m omega).1
      = fadd (laplacian_with_pml_ongrid e u m omega).1 (wavevector e u m omega).1
    ∧ (helmholtz_fourier e u m omega none).1
      = fadd (laplacian_with_pml_fourier e u m omega none).1 (wavevector e u m omega).1 := by
  refine ⟨rfl, ?_⟩
  show (fadd (laplacian_with_pml_fourier e u m omega
      (some ((laplacian_with_pml_fourier e u m omega none).2))).1 (wavevector e u m omega).1) = _
  rw [lap_fourier_refeed]

/-- C1: evaluating the FourierSeries `helmholtz` with the cache bundle
returned by a first evaluation at the same `(u, medium, omega)` reproduces
the uncached evaluation exactly (output field and bundle alike): the cache
never changes the output. -/
theorem C1_helmholtz_cache_transparent {GP : Type} (e : Engine GP) (u : FSField)
    (m : Medium CQ) (omega : CQ) :
    helmholtz_fourier e u m omega (some ((helmholtz_fourier e u m omega none).2))
      = helmholtz_fourier e u m omega none := by
  have h0 : (helmholtz_fourier e u m omega none).2
      = (laplacian_with_pml_fourier e u m omega none).2 := by
    show (laplacian_with_pml_fourier e u m omega
        (some ((laplacian_with_pml_fourier e u m omega none).2))).2 = _
    rw [lap_fourier_refeed]
  rw [h0]
  rfl

theorem CQ.pow_three_eq (a : CQ) : a ^ 3 = a * a * a := by
  show CQ.npow a 3 = a * a * a
  show CQ.npow a 2 * a = a * a * a
  rw [show CQ.npow a 2 = a ^ 2 from rfl, CQ.pow_two_eq_mul_self]

theorem zipWith_mul_self (l : List CQ) :
    List.zipWith (· * ·) l l = l.map (fun a => a * a) := by
  induction l with
  | nil => rfl
  | cons x xs ih => simp [ih]

theorem sfPow_two_eq (a : SFv CQ) : sfPow a 2 = sfMul a a := by
  cases a with
  | scalar c => simp [sfPow, sfMul, sfMap2, CQ.pow_two_eq_mul_self]
  | field f => simp [sfPow, sfMul, sfMap2, zipWith_mul_self, CQ.pow_two_eq_mul_self]

/-- The squared wavenumber exactly as the spec words it:
`k² = (ω/c)² + 2j·ω³·α/c` with `α` the elementwise dB-to-Neper conversion of
the attenuation at power-law exponent 2, and the result `u ⊙ k²`. -/
def wavevector_spec {GP : Type} (e : Engine GP) (u : FSField) (medium : Medium CQ)
    (omega : CQ) : FSField :=
  let c := medium.sound_speed
  let alpha := sfCompose medium.attenuation (fun x => e.db2neper x ⟨2, 0⟩)
  let omega_over_c := sfDiv (SFv.scalar omega) c
  let k_sq := sfAdd (sfMul omega_over_c omega_over_c)
    (sfDiv (sfMul (SFv.scalar (⟨0, 2⟩ * (omega * omega * omega))) alpha) c)
  fmulSF u k_sq

/-- C3: `wavevector(u, medium, omega)` returns `u` multiplied elementwise by
`k² = (ω/c)² + 2j·ω³·α/c` with `α = db2neper(attenuation, 2)` applied
elementwise, and its returned op-params component is empty (`None`). -/
theorem C3_wavevector_formula {GP : Type} (e : Engine GP) (u : FSField)
    (m : Medium CQ) (omega : CQ) :
    (wavevector e u m omega).1 = wavevector_spec e u m omega
    ∧ (wavevector e u m omega).2 = none := by
  refine ⟨?_, rfl⟩
  simp only [wavevector, wavevector_spec]
  rw [sfPow_two_eq, CQ.pow_three_eq]

/-- The caller-supplied cache bundle used in the C9 counterexample: it lacks
the `fft_rho0` entry. -/
def pC9 : LParams Unit := ⟨[[1]], (), none⟩

/-- A medium whose density is a Field, for the C9 counterexample. -/
def mC9 : Medium CQ := ⟨SFv.scalar 1, SFv.field [1], SFv.scalar 0, 0⟩

/-- C9 counterexample: with a Field density and a caller-supplied bundle
lacking the density-gradient entry, the FourierSeries `laplacian_with_pml`
returns the caller's dictionary with the `fft_rho0` key added — the source
assigns `params['fft_rho0'] = ...` into the caller's dictionary in place, so
the bundle passed in is changed (its key set grows). -/
theorem C9_counterexample :
    (laplacian_with_pml_fourier trivEngine [1] mC9 1 (some pC9)).2 ≠ pC9
    ∧ (laplacian_with_pml_fourier trivEngine [1] mC9 1 (some pC9)).2.fft_rho0 = some ()
    ∧ pC9.fft_rho0 = none := by
  refine ⟨?_, ?_, rfl⟩
  · intro h
    have h2 := congrArg LParams.fft_rho0 h
    simp [laplacian_with_pml_fourier, mC9, pC9, trivEngine] at h2
  · simp [laplacian_with_pml_fourier, mC9, pC9, trivEngine]

/-- C9 amended: a call with a caller-supplied bundle leaves the bundle
unchanged except in exactly one case — a Field density together with an
absent `fft_rho0` entry, where both `laplacian_with_pml` and `helmholtz`
(FourierSeries overloads) add `fft_rho0` to the caller's bundle in place. -/
theorem C9_amended_mutation_cases {GP : Type} (e : Engine GP) (u : FSField)
    (m : Medium CQ) (omega : CQ) (p : LParams GP) :
    (laplacian_with_pml_fourier e u m omega (some p)).2
      = (match m.density, p.fft_rho0 with
         | SFv.field rho0, none => { p with fft_rho0 := some (e.gradDefault rho0) }
         | _, _ => p)
    ∧ (helmholtz_fourier e u m omega (some p)).2
      = (match m.density, p.fft_rho0 with
         | SFv.field rho0, none => { p with fft_rho0 := some (e.gradDefault rho0) }
         | _, _ => p) := by
  obtain ⟨ss, dens, att, ps⟩ := m
  obtain ⟨pml, fu, fr⟩ := p
  cases dens <;> cases fr <;>
    simp [laplacian_with_pml_fourier, helmholtz_fourier]

/-- A medium whose three material entries live on three mutually different
domains (2-sample, 1-sample and scalar), for the C5 counterexample. -/
def mC5 : Medium CQ := ⟨SFv.field [1, 1], SFv.field [1], SFv.scalar 0, 15⟩

/-- C5 counterexample: the source `Medium` is a plain named tuple with no
domain attribute — constructing it from Field parameters on mutually
different domains succeeds (it is not a `DomainMismatch` error), and
`laplacian_with_pml` applied to a 3-sample field with this medium performs
no domain check at entry: it simply computes a value. -/
theorem C5_counterexample :
    Medium_new CQ (SFv.field [1, 1]) (SFv.field [1]) (SFv.scalar 0) 15 = Except.ok mC5
    ∧ Medium_new CQ (SFv.field [1, 1]) (SFv.field [1]) (SFv.scalar 0) 15
        ≠ Except.error PyErr.domainMismatch
    ∧ (laplacian_with_pml_fourier trivEngine [1, 1, 1] mC5 1 none).1 = [0] := by
  refine ⟨rfl, by simp [Medium_new], ?_⟩
  simp [laplacian_with_pml_fourier, initLParams, trivEngine, mC5, vmul, fmul,
    sum_over_dims, fsub, fdiv, fadd, CQ.div]
  congr 1
  apply CQ.ext_cq <;> simp [CQ.div_def, CQ.div]

/-- C5 amended: `Medium` construction stores its four parameters and always
succeeds — the source defines no domain validation and no `DomainMismatch`
error path (and `laplacian_with_pml`, being total, checks nothing at
entry). -/
theorem C5_amended_no_validation (V : Type) (ss d a : SFv V) (ps : ℤ) :
    Medium_new V ss d a ps = Except.ok ⟨ss, d, a, ps⟩ := rfl

/-- The homogeneous medium (sound speed 2) used for the C6 claims. -/
def mC6 : Medium ℚ := ⟨SFv.scalar 2, SFv.scalar 1, SFv.scalar 0, 0⟩

/-- C6 counterexample: for the grid of shape `(10,10)` with `dx=(1,1)` and
sound speed 2, the claimed default `t_end = sqrt(10²+10²)/2` is wrong: the
source spans each axis from its first to its last grid point, giving
`(n-1)·dx = 9` per axis and `t_end = sqrt(162)/2`. -/
theorem C6_counterexample :
    (TimeAxis_from_kgrid (make_grid [10, 10] [1, 1]) mC6 (3 / 10) none).t_end
      ≠ Real.sqrt ((10 : ℝ) ^ 2 + (10 : ℝ) ^ 2) / 2 := by
  have h162 : diagSqSum (make_grid [10, 10] [1, 1]) = 162 := by
    norm_num [diagSqSum, make_grid, spatial_axis, axFirst, axLast, List.range_succ]
  have ht : (TimeAxis_from_kgrid (make_grid [10, 10] [1, 1]) mC6 (3 / 10) none).t_end
      = Real.sqrt 162 / 2 := by
    simp [TimeAxis_from_kgrid, h162, sfvMin, mC6]
  rw [ht]
  have hlt : Real.sqrt 162 < Real.sqrt ((10 : ℝ) ^ 2 + (10 : ℝ) ^ 2) := by
    apply Real.sqrt_lt_sqrt (by norm_num)
    norm_num
  intro h
  have h2 : Real.sqrt 162 = Real.sqrt ((10 : ℝ) ^ 2 + (10 : ℝ) ^ 2) := by
    field_simp at h
    linarith
  rw [h2] at hlt
  exact lt_irrefl _ hlt

/-- C6 amended: `TimeAxis.from_kgrid` sets `dt = cfl·min(dx)/max(c)` as the
claim states, but the default `t_end` is the first-to-last grid point
diagonal `sqrt(Σ((Nᵢ−1)·dxᵢ)²)` divided by `min(c)` — `(Nᵢ−1)·dxᵢ` per axis,
not `Nᵢ·dxᵢ`. -/
theorem C6_amended_timeaxis (N : List ℕ) (dx : List ℚ) (medium : Medium ℚ)
    (cfl : ℚ) (hN : ∀ n ∈ N, 0 < n) :
    (TimeAxis_from_kgrid (make_grid N dx) medium cfl none).dt
      = cfl * listMin dx / sfvMax medium.sound_speed
    ∧ (TimeAxis_from_kgrid (make_grid N dx) medium cfl none).t_end
      = Real.sqrt ((((N.zip dx).map (fun p => (((p.1 : ℚ) - 1) * p.2) ^ 2)).sum : ℚ) : ℝ)
          / ((sfvMin medium.sound_speed : ℚ) : ℝ) := by
  refine ⟨rfl, ?_⟩
  show Real.sqrt ((diagSqSum (make_grid N dx) : ℚ) : ℝ) / _ = _
  rw [diagSqSum_make_grid N dx hN]

/-- Witness for C6 amended at the grid of shape `(10,10)`, `dx=(1,1)`,
sound speed 2 and `cfl = 0.3`: in particular `dt = 0.15` and
`t_end = sqrt(162)/2`. -/
theorem C6_amended_timeaxis_witness :
    (TimeAxis_from_kgrid (make_grid [10, 10] [1, 1]) mC6 (3 / 10) none).dt = 3 / 20
    ∧ (TimeAxis_from_kgrid (make_grid [10, 10] [1, 1]) mC6 (3 / 10) none).t_end
        = Real.sqrt ((162 : ℝ)) / 2 := by
  have h := C6_amended_timeaxis [10, 10] [1, 1] mC6 (3 / 10) (by decide)
  refine ⟨?_, ?_⟩
  · rw [h.1]
    norm_num [listMin, sfvMax, mC6]
  · rw [h.2]
    norm_num [sfvMin, mC6]

theorem exp_I_ne_exp_neg_I : Complex.exp Complex.I ≠ Complex.exp (-Complex.I) := by
  intro h
  have him := congrArg Complex.im h
  rw [Complex.exp_im, Complex.exp_im] at him
  simp [Real.sin_neg] at him
  have hpos : 0 < Real.sin 1 :=
    Real.sin_pos_of_pos_of_lt_pi one_pos (by linarith [Real.pi_gt_three])
  linarith

/-- A one-axis grid with wavenumber `k = 1` and spacing `dx = 2`, for the C8
counterexample (built directly, as the named tuple allows). -/
noncomputable def gC8 : KGrid := ⟨[1], [2], [[1]], 2, none, none, [[0]]⟩

/-- C8 counterexample: on the grid with `k = 1`, `dx = 2`, the claim's sign
pairing would make the `"backward"` entry `k·exp(−i·k·dx/2) = exp(−i)` and
the `"forward"` entry `exp(+i)`; the source stores the opposite signs, so
`to_staggered` does not produce that dictionary. -/
theorem C8_counterexample :
    (to_staggered gC8).k_staggered
      ≠ some { backward := [[Complex.exp (-Complex.I)]]
               forward := [[Complex.exp Complex.I]] } := by
  intro h
  have h2 := congrArg (fun o => (((Option.getD o ⟨[], []⟩).backward.headD []).headD 0)) h
  simp [to_staggered, gC8] at h2
  exact exp_I_ne_exp_neg_I h2

/-- C8 amended: `to_staggered` leaves every other grid field unchanged and
sets, per axis, the `"backward"` staggered variant to `k·exp(+i·k·dx/2)` and
the `"forward"` variant to `k·exp(−i·k·dx/2)` — the signs are paired the
other way round from the claim. -/
theorem C8_amended_staggered_signs (g : KGrid) :
    (to_staggered g).N = g.N
    ∧ (to_staggered g).dx = g.dx
    ∧ (to_staggered g).k_vec = g.k_vec
    ∧ (to_staggered g).cell_area = g.cell_area
    ∧ (to_staggered g).k_with_kspaceop = g.k_with_kspaceop
    ∧ (to_staggered g).space_axis = g.space_axis
    ∧ (to_staggered g).k_staggered = some
        { backward := (g.k_vec.zip g.dx).map (fun x =>
            x.1.map (fun (k : ℝ) => (k : ℂ) * Complex.exp (((k * (x.2 : ℝ) / 2 : ℝ) : ℂ) * Complex.I)))
          forward := (g.k_vec.zip g.dx).map (fun x =>
            x.1.map (fun (k : ℝ) => (k : ℂ) * Complex.exp (-(((k * (x.2 : ℝ) / 2 : ℝ) : ℂ) * Complex.I)))) } := by
  refine ⟨rfl, rfl, rfl, rfl, rfl, rfl, ?_⟩
  simp only [to_staggered]
  refine congrArg some (congrArg₂ Stag.mk ?_ ?_) <;>
    · apply List.map_congr_left
      intro x hx
      apply List.map_congr_left
      intro k hk
      congr 1
      push_cast
      ring
